import Mathlib

/-!
Verification of the trusted-artifact resolution and staged-install pipeline
of `pkg/update/update.go` (the `update` package of the orbit repository).

The filesystem is modelled as a map from path strings to nodes; the TUF
collaborator (`go-tuf` client) is modelled as an oracle structure supplying
the results of `Update`, `Target` and `Download`; OS-level failures
(directory creation, chmod, open, close, exec, rename) are injected through
a single failure point, which is faithful because the Go pipeline stops at
the first failing step, so the behaviour of a run only depends on which
step fails first.
-/

namespace Update

/-! ### Filesystem model -/

/-- A filesystem node: a regular file with byte content and permission mode,
a directory, or some other (non-regular) node such as a device or symlink
loop target. -/
inductive Node where
  | file (content : List Nat) (mode : Nat)
  | dir
  | special
deriving DecidableEq

def Node.isFile : Node → Bool
  | .file _ _ => true
  | _ => false

/-- A filesystem: paths to optional nodes. -/
abbrev FS := String → Option Node

def FS.set (fs : FS) (p : String) (n : Option Node) : FS :=
  fun q => if q = p then n else fs q

/-! ### Path helpers (Go's `path`/`filepath` functions, structural versions) -/

/-- Split a character list at a separator character. -/
def splitOnChar (c : Char) : List Char → List (List Char)
  | [] => [[]]
  | a :: rest =>
    let r := splitOnChar c rest
    if a = c then [] :: r
    else
      match r with
      | [] => [[a]]
      | x :: xs => (a :: x) :: xs

/-- Join a list of already non-empty path elements with `/`. -/
def joinNE : List String → String
  | [] => ""
  | [p] => p
  | p :: rest => p ++ "/" ++ joinNE rest

/-- Go's `path.Join`/`filepath.Join` (with `/` as separator): empty
components are skipped.  The `..`/duplicate-separator resolution of Go's
`Clean` is not modelled; no path built by the pipeline contains those. -/
def goJoin (parts : List String) : String :=
  joinNE (parts.filter (fun p => p != ""))

def splitPath (p : String) : List (List Char) :=
  splitOnChar '/' p.data

/-- Go's `filepath.Base`: the last non-empty path element, `"."` for the
empty path and `"/"` for a path made only of separators. -/
def baseName (p : String) : String :=
  match (splitPath p).reverse.find? (fun s => !s.isEmpty) with
  | some s => ⟨s⟩
  | none => if p = "" then "." else "/"

/-- Go's `filepath.Dir` restricted to the cleaned paths the pipeline
builds: everything before the last separator, `"."` when there is none. -/
def dirName (p : String) : String :=
  let front := (splitPath p).dropLast
  if front = [] then "."
  else
    let j := joinNE (front.filterMap (fun s => if s.isEmpty then none else some ⟨s⟩))
    if j = "" then "/" else j

/-! ### External collaborators and configuration -/

/-- Modelled from the spec: the `pkg/constant` and `pkg/platform` packages
of this repository are not under src/.  `platformName` is
`constant.PlatformName` (the running platform); `execExt` is
`constant.ExecutableExtension` (the per-platform executable extension
convention); `hashFn` is the family of hash algorithms used by
`CheckFileHash` ("compute the local file's hash using each algorithm
present in TargetMeta"). -/
structure Env where
  platformName : String
  execExt : String → String
  hashFn : String → List Nat → List Nat

/-- Modelled from the spec: `constant.DefaultExecutableMode`, the
executable permission mode given to the staging file at creation
(0o755). -/
def DefaultExecutableMode : Nat := 493

/-- Verified target metadata as reported by the trust-metadata client:
a hash-algorithm-to-value mapping and a size. -/
structure TargetMeta where
  hashes : List (String × List Nat)
  length : Nat
deriving DecidableEq

/-- Outcome of the go-tuf `client.Update()` call: success, the
"already at the latest snapshot" condition (recognised by
`client.IsLatestSnapshot`), or any other failure. -/
inductive RefreshResult where
  | ok
  | latestSnapshot
  | err (e : String)
deriving DecidableEq

/-- The go-tuf client, an external collaborator: refresh outcome, target
metadata resolution, and target download.  `download` returns the verified
byte stream written through the destination writer on success (the go-tuf
client enforces max size and hash of the streamed bytes before returning
success). -/
structure TufClient where
  refresh : RefreshResult
  target : String → Except String TargetMeta
  download : String → Except String (List Nat)

/-- The fields of `Options` the core logic reads. -/
structure Options where
  rootDirectory : String
  platform : String

/-- `Updater`: options plus the tuf client. -/
structure Updater where
  opt : Options
  client : TufClient

def binDir : String := "bin"
def stagingDir : String := "staging"

/-! ### ArtifactLocator -/

def Updater.pathFromRoot (u : Updater) (parts : List String) : String :=
  goJoin (u.opt.rootDirectory :: parts)

def RepoPath (env : Env) (u : Updater) (target channel : String) : String :=
  goJoin [target, u.opt.platform, channel, target ++ env.execExt u.opt.platform]

def LocalPath (env : Env) (u : Updater) (target channel : String) : String :=
  u.pathFromRoot [goJoin [binDir, target, u.opt.platform, channel,
    target ++ env.execExt u.opt.platform]]

def Updater.stagingPath (u : Updater) : String :=
  goJoin [u.opt.rootDirectory, stagingDir]

/-- The staging file path used by `Download`: `staging/<basename of
localPath>`. -/
def Updater.tmpPath (u : Updater) (localPath : String) : String :=
  goJoin [u.stagingPath, baseName localPath]

/-! ### Metadata operations -/

/-- `UpdateMetadata`: delegate to the client's refresh, translating the
"already at the latest snapshot" condition into success. -/
def UpdateMetadata (u : Updater) : Option String :=
  match u.client.refresh with
  | .err e => some ("update metadata: " ++ e)
  | _ => none

/-- `Lookup`: resolve the repository path of a target in the local target
metadata, wrapping errors with the target and channel names. -/
def Lookup (env : Env) (u : Updater) (target channel : String) :
    Except String TargetMeta :=
  match u.client.target (RepoPath env u target channel) with
  | .error e => .error ("lookup " ++ target ++ "@" ++ channel ++ ": " ++ e)
  | .ok t => .ok t

/-- Modelled from the spec: `CheckFileHash` lives in a file of
`pkg/update` that is not under src/.  "Compute the local file's hash using
each algorithm present in TargetMeta and compare; if every algorithm
matches" the cached artifact is accepted. -/
def CheckFileHash (env : Env) (meta : TargetMeta) (content : List Nat) : Bool :=
  meta.hashes.all (fun av => env.hashFn av.1 content == av.2)

/-! ### StagedInstaller -/

/-- Which step of the `Download` pipeline the injected OS-level failure
hits, if any.  A real run stops at its first failing step, so a single
failure point captures every observable behaviour.  A failure of the
go-tuf fetch itself is the client's and is carried by
`TufClient.download`. -/
inductive FailPoint where
  | noFail
  | mkdirStaging
  | chmodStagingDir
  | openTmp
  | chmodTmp
  | mkdirDest
  | chmodDestDir
  | closeTmp
  | smoke
  | preRename
  | finalRename
deriving DecidableEq

/-- Effect of a successful `os.MkdirAll` at a path: creates a directory
node when nothing is there; an existing node is left alone.  Failures are
injected through the `FailPoint` oracle. -/
def mkdirFx (fs : FS) (p : String) : FS :=
  match fs p with
  | none => fs.set p (some .dir)
  | some _ => fs

/-- `os.OpenFile` with `O_CREATE|O_WRONLY` (note: no `O_TRUNC` in the
source): an absent file is created empty with the given mode; an existing
regular file is opened keeping its content and its mode; a non-file node
cannot be opened. -/
def openCreateWronly (fs : FS) (p : String) (mode : Nat) : Option FS :=
  match fs p with
  | none => some (fs.set p (some (.file [] mode)))
  | some (.file _ _) => some fs
  | some _ => none

/-- Writing the fetched bytes through the `O_WRONLY` descriptor starts at
offset zero and does not truncate: bytes of a longer pre-existing file
beyond the written length survive. -/
def writeAt (fs : FS) (p : String) (d : List Nat) : FS :=
  match fs p with
  | some (.file c m) => fs.set p (some (.file (d ++ c.drop d.length) m))
  | _ => fs

/-- Result of a `Download` call: final filesystem, error, whether the
smoke test was executed, and how many network fetches were performed. -/
structure DlResult where
  fs : FS
  err : Option String
  smokeRan : Bool
  fetches : Nat

/-- The final publish rename: move the staging file onto `localPath`; the
deferred cleanup then removes the staging path (a no-op after a successful
rename). -/
def finishPublish (o : FailPoint) (fs : FS) (tmp localPath : String)
    (smokeRan : Bool) : DlResult :=
  if o = .finalRename then ⟨fs.set tmp none, some "move download", smokeRan, 1⟩
  else ⟨(fs.set localPath (fs tmp)).set tmp none, none, smokeRan, 1⟩

/-- `Download(repoPath, localPath)`: the staged install pipeline of
`update.go`.  Every error exit after the staging file was opened applies
the deferred cleanup (close and remove the staging file). -/
def Download (env : Env) (u : Updater) (o : FailPoint)
    (repoPath localPath : String) (fs : FS) : DlResult :=
  if o = .mkdirStaging then ⟨fs, some "initialize download dir", false, 0⟩ else
  let fs1 := mkdirFx fs u.stagingPath
  if o = .chmodStagingDir then ⟨fs1, some "chmod executable directory", false, 0⟩ else
  let tmp := u.tmpPath localPath
  if o = .openTmp then ⟨fs1, some "open temp file for download", false, 0⟩ else
  match openCreateWronly fs1 tmp DefaultExecutableMode with
  | none => ⟨fs1, some "open temp file for download", false, 0⟩
  | some fs2 =>
    if o = .chmodTmp then ⟨fs2.set tmp none, some "chmod download", false, 0⟩ else
    if o = .mkdirDest then ⟨fs2.set tmp none, some "initialize download dir", false, 0⟩ else
    let fs3 := mkdirFx fs2 (dirName localPath)
    if o = .chmodDestDir then ⟨fs3.set tmp none, some "chmod executable directory", false, 0⟩ else
    match u.client.download repoPath with
    | .error _ => ⟨fs3.set tmp none, some ("download target " ++ repoPath), false, 1⟩
    | .ok d =>
      let fs4 := writeAt fs3 tmp d
      if o = .closeTmp then ⟨fs4.set tmp none, some "close tmp file", false, 1⟩ else
      let smokeRan := u.opt.platform == env.platformName
      if smokeRan = true ∧ o = .smoke then
        ⟨fs4.set tmp none, some "exec new version", smokeRan, 1⟩
      else
        if env.platformName = "windows" then
          match fs4 localPath with
          | some n =>
            if o = .preRename then ⟨fs4.set tmp none, some "rename old", smokeRan, 1⟩
            else finishPublish o
              ((fs4.set (localPath ++ ".old") (some n)).set localPath none)
              tmp localPath smokeRan
          | none => finishPublish o fs4 tmp localPath smokeRan
        else finishPublish o fs4 tmp localPath smokeRan

/-! ### CacheValidator (`Get`) -/

/-- Result of a `Get` call.  `lookedUp` records whether `Lookup` (metadata
resolution) was invoked, `downloaded` whether `Download` was invoked, and
`fetches` how many network fetches happened. -/
structure GetResult where
  fs : FS
  path : String
  err : Option String
  fetches : Nat
  lookedUp : Bool
  downloaded : Bool

/-- `Get(target, channel)`: compute paths, stat the local path (the `so`
oracle injects stat failures on existing paths; an absent path always
fails the stat), check regularity, resolve metadata, compare hashes, and
fall into `Download` on the must-redownload branches. -/
def Get (env : Env) (u : Updater) (so : String → Bool) (o : FailPoint)
    (target channel : String) (fs : FS) : GetResult :=
  if target = "" then ⟨fs, "", some "target is required", 0, false, false⟩ else
  if channel = "" then ⟨fs, "", some "channel is required", 0, false, false⟩ else
  let localPath := LocalPath env u target channel
  let repoPath := RepoPath env u target channel
  if so localPath then
    let d := Download env u o repoPath localPath fs
    ⟨d.fs, localPath, d.err, d.fetches, false, true⟩
  else
    match fs localPath with
    | none =>
      let d := Download env u o repoPath localPath fs
      ⟨d.fs, localPath, d.err, d.fetches, false, true⟩
    | some (.file c _) =>
      match Lookup env u target channel with
      | .error e => ⟨fs, "", some e, 0, true, false⟩
      | .ok meta =>
        if CheckFileHash env meta c then ⟨fs, localPath, none, 0, true, false⟩
        else
          let d := Download env u o repoPath localPath fs
          ⟨d.fs, localPath, d.err, d.fetches, true, true⟩
    | some _ =>
      ⟨fs, "", some ("expected " ++ localPath ++ " to be regular file"), 0, false, false⟩

/-- A path strictly inside the staging directory. -/
def UnderStaging (u : Updater) (p : String) : Prop :=
  ∃ s, s ≠ "" ∧ p = u.stagingPath ++ "/" ++ s

/-! ### Concrete instances used by evaluation theorems and witnesses -/

/-- A concrete environment: running platform `linux`, the usual extension
convention, and an "identity" hash algorithm family (adequate because
`CheckFileHash` is parametric in the algorithms). -/
def env0 : Env :=
  { platformName := "linux"
    execExt := fun p => if p = "windows" then ".exe" else ""
    hashFn := fun _ c => c }

/-- A concrete tuf client: one target whose declared `id`-hash is `[5]` and
whose verified download stream is the single byte `5`. -/
def client0 : TufClient :=
  { refresh := .ok
    target := fun _ => .ok ⟨[("id", [5])], 1⟩
    download := fun _ => .ok [5] }

def u0 : Updater :=
  { opt := { rootDirectory := "r", platform := "linux" }, client := client0 }

/-- A filesystem holding a stale three-byte file at the staging path that
`Download` will reuse for target `agent`. -/
def fsC : FS :=
  fun q => if q = "r/staging/agent" then some (.file [9, 9, 9] 493) else none

/-- A Windows environment. -/
def envW : Env := { env0 with platformName := "windows" }

def uW : Updater :=
  { opt := { rootDirectory := "r", platform := "windows" }, client := client0 }

/-- A filesystem with an existing installed artifact at the Windows local
path. -/
def fsW : FS :=
  fun q => if q = "r/bin/agent/windows/stable/agent.exe" then some (.file [1] 493)
    else none

/-! ### Helper lemmas and claim theorems -/


lemma append_ne_empty (a b : String) (h : a ≠ "") : a ++ b ≠ "" := by
  intro heq
  have hl := congrArg String.length heq
  simp [String.length_append] at hl
  exact h (String.ext (List.length_eq_zero.mp hl.1))

lemma append_slash_ne (s t : String) : s ++ "/" ++ t ≠ s := by
  intro heq
  have hl := congrArg String.length heq
  have h1 : ("/" : String).length = 1 := rfl
  simp [String.length_append, h1] at hl
  omega

lemma append_ne_self (s t : String) (h : t ≠ "") : s ++ t ≠ s := by
  intro heq
  have hl := congrArg String.length heq
  simp [String.length_append] at hl
  exact h (String.ext (List.length_eq_zero.mp hl))

lemma joinNE_ne_empty : ∀ (l : List String), (∀ x ∈ l, x ≠ "") → l ≠ [] → joinNE l ≠ ""
  | [], _, h => absurd rfl h
  | [p], hall, _ => hall p (by simp)
  | p :: q :: rest, hall, _ => by
    have hp : p ≠ "" := hall p (by simp)
    show joinNE (p :: q :: rest) ≠ ""
    simp only [joinNE]
    exact append_ne_empty _ _ (append_ne_empty _ _ hp)

lemma goJoin_ne_empty (parts : List String) (x : String) (hx : x ∈ parts)
    (hne : x ≠ "") : goJoin parts ≠ "" := by
  apply joinNE_ne_empty
  · intro y hy
    have := List.mem_filter.mp hy
    simpa using this.2
  · intro hnil
    have : x ∈ parts.filter (fun p => p != "") :=
      List.mem_filter.mpr ⟨hx, by simpa using hne⟩
    rw [hnil] at this
    exact absurd this (List.not_mem_nil x)

lemma stagingPath_ne_empty (u : Updater) : u.stagingPath ≠ "" :=
  goJoin_ne_empty _ stagingDir (by simp [Updater.stagingPath]) (by decide)

lemma baseName_ne_empty (p : String) : baseName p ≠ "" := by
  unfold baseName
  split
  · next s hf =>
    have hs := List.find?_some hf
    intro h
    have hd : s = [] := by simpa using congrArg String.data h
    rw [hd] at hs
    simp at hs
  · split <;> decide

lemma tmpPath_eq (u : Updater) (localPath : String) :
    u.tmpPath localPath = u.stagingPath ++ "/" ++ baseName localPath := by
  have hs : (u.stagingPath != "") = true := by
    simpa using stagingPath_ne_empty u
  have hb : (baseName localPath != "") = true := by
    simpa using baseName_ne_empty localPath
  simp [Updater.tmpPath, goJoin, List.filter, hs, hb, joinNE]

lemma tmp_under_staging (u : Updater) (localPath : String) :
    UnderStaging u (u.tmpPath localPath) :=
  ⟨baseName localPath, baseName_ne_empty localPath, tmpPath_eq u localPath⟩

lemma under_staging_ne_staging (u : Updater) (p : String)
    (h : UnderStaging u p) : p ≠ u.stagingPath := by
  obtain ⟨s, _, rfl⟩ := h
  exact append_slash_ne _ _

lemma localPath_ne_empty (env : Env) (u : Updater) (target channel : String) :
    LocalPath env u target channel ≠ "" := by
  apply goJoin_ne_empty _ (goJoin [binDir, target, u.opt.platform, channel,
    target ++ env.execExt u.opt.platform])
  · simp [Updater.pathFromRoot, LocalPath]
  · exact goJoin_ne_empty _ binDir (by simp) (by decide)

lemma FS.get_set_self (fs : FS) (p : String) (n : Option Node) : fs.set p n p = n := by
  simp [FS.set]

lemma FS.get_set_ne (fs : FS) (p : String) (n : Option Node) (q : String) (h : q ≠ p) :
    fs.set p n q = fs q := by
  simp [FS.set, h]

lemma mkdirFx_ne (fs : FS) (p q : String) (h : q ≠ p) : mkdirFx fs p q = fs q := by
  cases hfp : fs p with
  | none =>
    simp only [mkdirFx, hfp]
    exact FS.get_set_ne _ _ _ _ h
  | some n => simp only [mkdirFx, hfp]

lemma mkdirFx_no_file (fs : FS) (p q : String) (h : ∀ c m, fs q ≠ some (.file c m)) :
    ∀ c m, mkdirFx fs p q ≠ some (.file c m) := by
  intro c m
  cases hfp : fs p with
  | none =>
    simp only [mkdirFx, hfp]
    by_cases hq : q = p
    · subst hq
      rw [FS.get_set_self]
      simp
    · rw [FS.get_set_ne _ _ _ _ hq]
      exact h c m
  | some n =>
    simp only [mkdirFx, hfp]
    exact h c m

lemma writeAt_ne (fs : FS) (p : String) (d : List Nat) (q : String) (h : q ≠ p) :
    writeAt fs p d q = fs q := by
  cases hfp : fs p with
  | none => simp only [writeAt, hfp]
  | some n =>
    cases n with
    | file c m =>
      simp only [writeAt, hfp]
      exact FS.get_set_ne _ _ _ _ h
    | dir => simp only [writeAt, hfp]
    | special => simp only [writeAt, hfp]

/-- Claim C1: every `Download` call that fails at a step before the final
publish rename (the injected failure point is not the final rename, and the
call returns an error) leaves the content or absence at `localPath`
byte-identical to its state before the call and leaves no regular file
under the staging directory, assuming the staging area starts empty and
`localPath` is none of the pipeline's own auxiliary paths. -/
theorem download_failure_atomic (env : Env) (u : Updater) (o : FailPoint)
    (repoPath localPath : String) (fs : FS)
    (hfin : o ≠ .finalRename)
    (hstag : ∀ p, UnderStaging u p → fs p = none)
    (hlp1 : localPath ≠ u.stagingPath)
    (hlp2 : localPath ≠ dirName localPath)
    (hlp3 : localPath ≠ u.tmpPath localPath)
    (herr : (Download env u o repoPath localPath fs).err.isSome = true) :
    (Download env u o repoPath localPath fs).fs localPath = fs localPath ∧
    ∀ p, UnderStaging u p → ∀ c m,
      (Download env u o repoPath localPath fs).fs p ≠ some (.file c m) := by
  have htmp0 : (mkdirFx fs u.stagingPath) (u.tmpPath localPath) = none := by
    rw [mkdirFx_ne _ _ _ (under_staging_ne_staging u _ (tmp_under_staging u localPath))]
    exact hstag _ (tmp_under_staging u localPath)
  have e_open : openCreateWronly (mkdirFx fs u.stagingPath) (u.tmpPath localPath)
      DefaultExecutableMode
      = some ((mkdirFx fs u.stagingPath).set (u.tmpPath localPath)
          (some (.file [] DefaultExecutableMode))) := by
    simp [openCreateWronly, htmp0]
  have hfs3val : mkdirFx (FS.set (mkdirFx fs u.stagingPath) (u.tmpPath localPath)
      (some (Node.file [] DefaultExecutableMode))) (dirName localPath) localPath
      = fs localPath := by
    rw [mkdirFx_ne _ _ _ hlp2, FS.get_set_ne _ _ _ _ hlp3, mkdirFx_ne _ _ _ hlp1]
  have hnoFs : ∀ p, UnderStaging u p → ∀ c m, fs p ≠ some (.file c m) := by
    intro p hp c m
    rw [hstag p hp]
    simp
  have hnoE1 : ∀ p, UnderStaging u p → ∀ c m,
      mkdirFx fs u.stagingPath p ≠ some (.file c m) := fun p hp =>
    mkdirFx_no_file _ _ _ (hnoFs p hp)
  have hnoFs3 : ∀ p, UnderStaging u p → p ≠ u.tmpPath localPath → ∀ c m,
      mkdirFx (FS.set (mkdirFx fs u.stagingPath) (u.tmpPath localPath)
        (some (Node.file [] DefaultExecutableMode))) (dirName localPath) p
        ≠ some (.file c m) := by
    intro p hp hpt
    apply mkdirFx_no_file
    intro c m
    rw [FS.get_set_ne _ _ _ _ hpt]
    exact hnoE1 p hp c m
  have hnoSetTmp : ∀ (X : FS),
      (∀ p, UnderStaging u p → p ≠ u.tmpPath localPath → ∀ c m, X p ≠ some (.file c m)) →
      ∀ p, UnderStaging u p → ∀ c m,
        FS.set X (u.tmpPath localPath) none p ≠ some (.file c m) := by
    intro X hX p hp c m
    by_cases hpt : p = u.tmpPath localPath
    · subst hpt
      rw [FS.get_set_self]
      simp
    · rw [FS.get_set_ne _ _ _ _ hpt]
      exact hX p hp hpt c m
  have hnoE2 : ∀ p, UnderStaging u p → ∀ c m,
      FS.set (FS.set (mkdirFx fs u.stagingPath) (u.tmpPath localPath)
        (some (Node.file [] DefaultExecutableMode))) (u.tmpPath localPath) none p
        ≠ some (.file c m) := by
    apply hnoSetTmp
    intro p hp hpt c m
    rw [FS.get_set_ne _ _ _ _ hpt]
    exact hnoE1 p hp c m
  have hnoE3 : ∀ p, UnderStaging u p → ∀ c m,
      FS.set (mkdirFx (FS.set (mkdirFx fs u.stagingPath) (u.tmpPath localPath)
        (some (Node.file [] DefaultExecutableMode))) (dirName localPath))
        (u.tmpPath localPath) none p ≠ some (.file c m) :=
    hnoSetTmp _ hnoFs3
  have hnoE4 : ∀ d, ∀ p, UnderStaging u p → ∀ c m,
      FS.set (writeAt (mkdirFx (FS.set (mkdirFx fs u.stagingPath) (u.tmpPath localPath)
        (some (Node.file [] DefaultExecutableMode))) (dirName localPath))
        (u.tmpPath localPath) d) (u.tmpPath localPath) none p ≠ some (.file c m) := by
    intro d
    apply hnoSetTmp
    intro p hp hpt c m
    rw [writeAt_ne _ _ _ _ hpt]
    exact hnoFs3 p hp hpt c m
  have hvalE2 : FS.set (FS.set (mkdirFx fs u.stagingPath) (u.tmpPath localPath)
      (some (Node.file [] DefaultExecutableMode))) (u.tmpPath localPath) none localPath
      = fs localPath := by
    rw [FS.get_set_ne _ _ _ _ hlp3, FS.get_set_ne _ _ _ _ hlp3, mkdirFx_ne _ _ _ hlp1]
  have hvalE3 : FS.set (mkdirFx (FS.set (mkdirFx fs u.stagingPath) (u.tmpPath localPath)
      (some (Node.file [] DefaultExecutableMode))) (dirName localPath))
      (u.tmpPath localPath) none localPath = fs localPath := by
    rw [FS.get_set_ne _ _ _ _ hlp3, hfs3val]
  have hvalE4 : ∀ d, FS.set (writeAt (mkdirFx (FS.set (mkdirFx fs u.stagingPath)
      (u.tmpPath localPath) (some (Node.file [] DefaultExecutableMode)))
      (dirName localPath)) (u.tmpPath localPath) d) (u.tmpPath localPath) none localPath
      = fs localPath := by
    intro d
    rw [FS.get_set_ne _ _ _ _ hlp3, writeAt_ne _ _ _ _ hlp3, hfs3val]
  cases o with
  | finalRename => exact absurd rfl hfin
  | mkdirStaging =>
    constructor
    · simp [Download]
    · simpa [Download] using hnoFs
  | chmodStagingDir =>
    constructor
    · simp [Download]
      rw [mkdirFx_ne _ _ _ hlp1]
    · simpa [Download] using hnoE1
  | openTmp =>
    constructor
    · simp [Download]
      rw [mkdirFx_ne _ _ _ hlp1]
    · simpa [Download] using hnoE1
  | chmodTmp =>
    constructor
    · simpa [Download, e_open] using hvalE2
    · simpa [Download, e_open] using hnoE2
  | mkdirDest =>
    constructor
    · simpa [Download, e_open] using hvalE2
    · simpa [Download, e_open] using hnoE2
  | chmodDestDir =>
    constructor
    · simpa [Download, e_open] using hvalE3
    · simpa [Download, e_open] using hnoE3
  | closeTmp =>
    cases hdl : u.client.download repoPath with
    | error e =>
      constructor
      · simpa [Download, e_open, hdl] using hvalE3
      · simpa [Download, e_open, hdl] using hnoE3
    | ok d =>
      constructor
      · simpa [Download, e_open, hdl] using hvalE4 d
      · simpa [Download, e_open, hdl] using hnoE4 d
  | smoke =>
    cases hdl : u.client.download repoPath with
    | error e =>
      constructor
      · simpa [Download, e_open, hdl] using hvalE3
      · simpa [Download, e_open, hdl] using hnoE3
    | ok d =>
      by_cases hplat : (u.opt.platform == env.platformName) = true
      · constructor
        · simpa [Download, e_open, hdl, hplat] using hvalE4 d
        · simpa [Download, e_open, hdl, hplat] using hnoE4 d
      · exfalso
        have h4 : writeAt (mkdirFx (FS.set (mkdirFx fs u.stagingPath) (u.tmpPath localPath)
            (some (Node.file [] DefaultExecutableMode))) (dirName localPath))
            (u.tmpPath localPath) d localPath = fs localPath := by
          rw [writeAt_ne _ _ _ _ hlp3, hfs3val]
        have hnone : (Download env u .smoke repoPath localPath fs).err = none := by
          simp [Download, e_open, hdl, hplat, h4]
          split
          · cases hc : fs localPath <;> simp [finishPublish]
          · simp [finishPublish]
        rw [hnone] at herr
        simp at herr
  | preRename =>
    cases hdl : u.client.download repoPath with
    | error e =>
      constructor
      · simpa [Download, e_open, hdl] using hvalE3
      · simpa [Download, e_open, hdl] using hnoE3
    | ok d =>
      have h4 : writeAt (mkdirFx (FS.set (mkdirFx fs u.stagingPath) (u.tmpPath localPath)
          (some (Node.file [] DefaultExecutableMode))) (dirName localPath))
          (u.tmpPath localPath) d localPath = fs localPath := by
        rw [writeAt_ne _ _ _ _ hlp3, hfs3val]
      by_cases hwin : env.platformName = "windows"
      · cases hc : fs localPath with
        | some n =>
          constructor
          · simpa [Download, e_open, hdl, hwin, h4, hc] using hvalE4 d
          · simpa [Download, e_open, hdl, hwin, h4, hc] using hnoE4 d
        | none =>
          exfalso
          have hnone : (Download env u .preRename repoPath localPath fs).err = none := by
            simp [Download, e_open, hdl, hwin, h4, hc, finishPublish]
          rw [hnone] at herr
          simp at herr
      · exfalso
        have hnone : (Download env u .preRename repoPath localPath fs).err = none := by
          simp [Download, e_open, hdl, hwin, finishPublish]
        rw [hnone] at herr
        simp at herr
  | noFail =>
    cases hdl : u.client.download repoPath with
    | error e =>
      constructor
      · simpa [Download, e_open, hdl] using hvalE3
      · simpa [Download, e_open, hdl] using hnoE3
    | ok d =>
      exfalso
      have h4 : writeAt (mkdirFx (FS.set (mkdirFx fs u.stagingPath) (u.tmpPath localPath)
          (some (Node.file [] DefaultExecutableMode))) (dirName localPath))
          (u.tmpPath localPath) d localPath = fs localPath := by
        rw [writeAt_ne _ _ _ _ hlp3, hfs3val]
      have hnone : (Download env u .noFail repoPath localPath fs).err = none := by
        simp [Download, e_open, hdl, h4]
        split
        · cases hc : fs localPath <;> simp [finishPublish]
        · simp [finishPublish]
      rw [hnone] at herr
      simp at herr

lemma tmp_ne_staging (u : Updater) (localPath : String) :
    u.tmpPath localPath ≠ u.stagingPath :=
  under_staging_ne_staging u _ (tmp_under_staging u localPath)

lemma mkdirFx_some (fs : FS) (p q : String) (n : Node) (h : fs q = some n) :
    mkdirFx fs p q = some n := by
  by_cases hq : q = p
  · subst hq
    simp only [mkdirFx, h]
  · rw [mkdirFx_ne _ _ _ hq]
    exact h

lemma writeAt_get (fs : FS) (p : String) (d c : List Nat) (m : Nat)
    (h : fs p = some (.file c m)) :
    writeAt fs p d p = some (.file (d ++ c.drop d.length) m) := by
  simp only [writeAt, h]
  exact FS.get_set_self _ _ _

lemma download_success_shape (env : Env) (u : Updater) (o : FailPoint)
    (repoPath localPath : String) (fs : FS) (d : List Nat)
    (hdl : u.client.download repoPath = .ok d)
    (htmp : fs (u.tmpPath localPath) = none)
    (hlp1 : localPath ≠ u.stagingPath)
    (hlp2 : localPath ≠ dirName localPath)
    (hlp3 : localPath ≠ u.tmpPath localPath)
    (hold : localPath ++ ".old" ≠ u.tmpPath localPath)
    (ho1 : o ≠ .mkdirStaging) (ho2 : o ≠ .chmodStagingDir) (ho3 : o ≠ .openTmp)
    (ho4 : o ≠ .chmodTmp) (ho5 : o ≠ .mkdirDest) (ho6 : o ≠ .chmodDestDir)
    (ho7 : o ≠ .closeTmp) (ho9 : o ≠ .preRename) (ho10 : o ≠ .finalRename)
    (ho8 : ¬((u.opt.platform == env.platformName) = true ∧ o = .smoke)) :
    (Download env u o repoPath localPath fs).err = none ∧
    (Download env u o repoPath localPath fs).smokeRan
      = (u.opt.platform == env.platformName) ∧
    (Download env u o repoPath localPath fs).fs localPath
      = some (.file d DefaultExecutableMode) ∧
    (Download env u o repoPath localPath fs).fs (u.tmpPath localPath) = none ∧
    (env.platformName = "windows" → ∀ n, fs localPath = some n →
      (Download env u o repoPath localPath fs).fs (localPath ++ ".old") = some n) := by
  have htmp0 : (mkdirFx fs u.stagingPath) (u.tmpPath localPath) = none := by
    rw [mkdirFx_ne _ _ _ (tmp_ne_staging u localPath)]
    exact htmp
  have e_open : openCreateWronly (mkdirFx fs u.stagingPath) (u.tmpPath localPath)
      DefaultExecutableMode
      = some ((mkdirFx fs u.stagingPath).set (u.tmpPath localPath)
          (some (.file [] DefaultExecutableMode))) := by
    simp [openCreateWronly, htmp0]
  have h2tmp : (FS.set (mkdirFx fs u.stagingPath) (u.tmpPath localPath)
      (some (Node.file [] DefaultExecutableMode))) (u.tmpPath localPath)
      = some (Node.file [] DefaultExecutableMode) := FS.get_set_self _ _ _
  have h3tmp : mkdirFx (FS.set (mkdirFx fs u.stagingPath) (u.tmpPath localPath)
      (some (Node.file [] DefaultExecutableMode))) (dirName localPath) (u.tmpPath localPath)
      = some (Node.file [] DefaultExecutableMode) := mkdirFx_some _ _ _ _ h2tmp
  have h4tmp : writeAt (mkdirFx (FS.set (mkdirFx fs u.stagingPath) (u.tmpPath localPath)
      (some (Node.file [] DefaultExecutableMode))) (dirName localPath))
      (u.tmpPath localPath) d (u.tmpPath localPath)
      = some (Node.file d DefaultExecutableMode) := by
    rw [writeAt_get _ _ _ _ _ h3tmp]
    simp
  have h4lp : writeAt (mkdirFx (FS.set (mkdirFx fs u.stagingPath) (u.tmpPath localPath)
      (some (Node.file [] DefaultExecutableMode))) (dirName localPath))
      (u.tmpPath localPath) d localPath = fs localPath := by
    rw [writeAt_ne _ _ _ _ hlp3, mkdirFx_ne _ _ _ hlp2, FS.get_set_ne _ _ _ _ hlp3,
      mkdirFx_ne _ _ _ hlp1]
  have hDpre : Download env u o repoPath localPath fs =
      (if env.platformName = "windows" then
        match (writeAt (mkdirFx (FS.set (mkdirFx fs u.stagingPath) (u.tmpPath localPath)
            (some (Node.file [] DefaultExecutableMode))) (dirName localPath))
            (u.tmpPath localPath) d) localPath with
        | some n =>
          if o = .preRename then
            ⟨FS.set (writeAt (mkdirFx (FS.set (mkdirFx fs u.stagingPath) (u.tmpPath localPath)
                (some (Node.file [] DefaultExecutableMode))) (dirName localPath))
                (u.tmpPath localPath) d) (u.tmpPath localPath) none,
              some "rename old", u.opt.platform == env.platformName, 1⟩
          else finishPublish o
            (FS.set (FS.set (writeAt (mkdirFx (FS.set (mkdirFx fs u.stagingPath)
                (u.tmpPath localPath) (some (Node.file [] DefaultExecutableMode)))
                (dirName localPath)) (u.tmpPath localPath) d)
              (localPath ++ ".old") (some n)) localPath none)
            (u.tmpPath localPath) localPath (u.opt.platform == env.platformName)
        | none => finishPublish o
            (writeAt (mkdirFx (FS.set (mkdirFx fs u.stagingPath) (u.tmpPath localPath)
              (some (Node.file [] DefaultExecutableMode))) (dirName localPath))
              (u.tmpPath localPath) d)
            (u.tmpPath localPath) localPath (u.opt.platform == env.platformName)
      else finishPublish o
          (writeAt (mkdirFx (FS.set (mkdirFx fs u.stagingPath) (u.tmpPath localPath)
            (some (Node.file [] DefaultExecutableMode))) (dirName localPath))
            (u.tmpPath localPath) d)
          (u.tmpPath localPath) localPath (u.opt.platform == env.platformName)) := by
    simp only [Download, e_open, hdl]
    rw [if_neg ho1, if_neg ho2, if_neg ho3, if_neg ho4, if_neg ho5, if_neg ho6,
      if_neg ho7, if_neg ho8]
  rw [hDpre, h4lp]
  by_cases hwin : env.platformName = "windows"
  · rw [if_pos hwin]
    cases hc : fs localPath with
    | some n =>
      simp only [hc]
      rw [if_neg ho9]
      simp only [finishPublish]
      rw [if_neg ho10]
      refine ⟨rfl, rfl, ?_, ?_, ?_⟩
      · simp [FS.get_set_ne, FS.get_set_self, hlp3, Ne.symm hlp3, Ne.symm hold, h4tmp]
      · simp [FS.get_set_self]
      · intro _ n' hn'
        have hnn : n = n' := Option.some.inj hn'
        subst hnn
        simp [FS.get_set_ne, FS.get_set_self, hold,
          append_ne_self localPath ".old" (by decide)]
    | none =>
      simp only [hc]
      simp only [finishPublish]
      rw [if_neg ho10]
      refine ⟨rfl, rfl, ?_, ?_, ?_⟩
      · simp [FS.get_set_ne, FS.get_set_self, hlp3, h4tmp]
      · simp [FS.get_set_self]
      · intro _ n' hn'
        exact Option.noConfusion hn'
  · rw [if_neg hwin]
    simp only [finishPublish]
    rw [if_neg ho10]
    refine ⟨rfl, rfl, ?_, ?_, ?_⟩
    · simp [FS.get_set_ne, FS.get_set_self, hlp3, h4tmp]
    · simp [FS.get_set_self]
    · intro hwin' _ _
      exact absurd hwin' hwin

/-- Claim C5: `Download` runs the smoke test (executing the staged binary)
exactly when the configured target platform equals the running platform;
when it runs and the execution fails the whole `Download` fails and the
staging file is discarded, and when the platforms differ the smoke test is
skipped, so a binary that would fail it is still published. -/
theorem download_smoke_test_gate (env : Env) (u : Updater)
    (repoPath localPath : String) (fs : FS) (d : List Nat)
    (hdl : u.client.download repoPath = .ok d)
    (htmp : fs (u.tmpPath localPath) = none)
    (hlp1 : localPath ≠ u.stagingPath)
    (hlp2 : localPath ≠ dirName localPath)
    (hlp3 : localPath ≠ u.tmpPath localPath)
    (hold : localPath ++ ".old" ≠ u.tmpPath localPath) :
    (Download env u .smoke repoPath localPath fs).smokeRan
      = (u.opt.platform == env.platformName) ∧
    (u.opt.platform = env.platformName →
      (Download env u .smoke repoPath localPath fs).err.isSome = true ∧
      (Download env u .smoke repoPath localPath fs).fs (u.tmpPath localPath) = none) ∧
    (u.opt.platform ≠ env.platformName →
      (Download env u .smoke repoPath localPath fs).err = none ∧
      (Download env u .smoke repoPath localPath fs).fs localPath
        = some (.file d DefaultExecutableMode)) := by
  by_cases hplat : u.opt.platform = env.platformName
  · have hbeq : (u.opt.platform == env.platformName) = true := by simp [hplat]
    have htmp0 : (mkdirFx fs u.stagingPath) (u.tmpPath localPath) = none := by
      rw [mkdirFx_ne _ _ _ (tmp_ne_staging u localPath)]
      exact htmp
    have e_open : openCreateWronly (mkdirFx fs u.stagingPath) (u.tmpPath localPath)
        DefaultExecutableMode
        = some ((mkdirFx fs u.stagingPath).set (u.tmpPath localPath)
            (some (.file [] DefaultExecutableMode))) := by
      simp [openCreateWronly, htmp0]
    have hD : Download env u .smoke repoPath localPath fs
        = ⟨FS.set (writeAt (mkdirFx (FS.set (mkdirFx fs u.stagingPath)
            (u.tmpPath localPath) (some (Node.file [] DefaultExecutableMode)))
            (dirName localPath)) (u.tmpPath localPath) d) (u.tmpPath localPath) none,
          some "exec new version", u.opt.platform == env.platformName, 1⟩ := by
      simp only [Download, e_open, hdl]
      rw [if_neg (by decide : FailPoint.smoke ≠ FailPoint.mkdirStaging),
        if_neg (by decide : FailPoint.smoke ≠ FailPoint.chmodStagingDir),
        if_neg (by decide : FailPoint.smoke ≠ FailPoint.openTmp),
        if_neg (by decide : FailPoint.smoke ≠ FailPoint.chmodTmp),
        if_neg (by decide : FailPoint.smoke ≠ FailPoint.mkdirDest),
        if_neg (by decide : FailPoint.smoke ≠ FailPoint.chmodDestDir),
        if_neg (by decide : FailPoint.smoke ≠ FailPoint.closeTmp),
        if_pos ⟨hbeq, trivial⟩]
    rw [hD]
    refine ⟨rfl, fun _ => ⟨rfl, FS.get_set_self _ _ _⟩, fun hne => absurd hplat hne⟩
  · have hshape := download_success_shape env u .smoke repoPath localPath fs d hdl htmp
      hlp1 hlp2 hlp3 hold (by decide) (by decide) (by decide) (by decide) (by decide)
      (by decide) (by decide) (by decide) (by decide)
      (fun h => hplat (eq_of_beq h.1))
    exact ⟨hshape.2.1, fun heq => absurd heq hplat,
      fun _ => ⟨hshape.1, hshape.2.2.1⟩⟩

/-- Claim C6: on Windows, `Download` first renames an existing file at
`localPath` to `localPath ++ ".old"` before the publish rename; a
does-not-exist condition is ignored while any other pre-rename error
aborts the download leaving `localPath` untouched; after a successful
install the old content sits at `localPath ++ ".old"` and the new verified
content at `localPath`. -/
theorem download_windows_pre_rename (env : Env) (u : Updater)
    (repoPath localPath : String) (fs : FS) (d : List Nat) (oldN : Node)
    (henv : env.platformName = "windows")
    (hdl : u.client.download repoPath = .ok d)
    (htmp : fs (u.tmpPath localPath) = none)
    (hlp1 : localPath ≠ u.stagingPath)
    (hlp2 : localPath ≠ dirName localPath)
    (hlp3 : localPath ≠ u.tmpPath localPath)
    (hold : localPath ++ ".old" ≠ u.tmpPath localPath) :
    (fs localPath = some oldN →
      (Download env u .preRename repoPath localPath fs).err.isSome = true ∧
      (Download env u .preRename repoPath localPath fs).fs localPath = some oldN ∧
      (Download env u .preRename repoPath localPath fs).fs (u.tmpPath localPath) = none) ∧
    (fs localPath = some oldN →
      (Download env u .noFail repoPath localPath fs).err = none ∧
      (Download env u .noFail repoPath localPath fs).fs (localPath ++ ".old") = some oldN ∧
      (Download env u .noFail repoPath localPath fs).fs localPath
        = some (.file d DefaultExecutableMode)) ∧
    (fs localPath = none →
      (Download env u .noFail repoPath localPath fs).err = none ∧
      (Download env u .noFail repoPath localPath fs).fs localPath
        = some (.file d DefaultExecutableMode)) := by
  have hshape := download_success_shape env u .noFail repoPath localPath fs d hdl htmp
    hlp1 hlp2 hlp3 hold (by decide) (by decide) (by decide) (by decide) (by decide)
    (by decide) (by decide) (by decide) (by decide)
    (fun h => FailPoint.noConfusion h.2)
  refine ⟨?_, ?_, ?_⟩
  · intro hfs
    have htmp0 : (mkdirFx fs u.stagingPath) (u.tmpPath localPath) = none := by
      rw [mkdirFx_ne _ _ _ (tmp_ne_staging u localPath)]
      exact htmp
    have e_open : openCreateWronly (mkdirFx fs u.stagingPath) (u.tmpPath localPath)
        DefaultExecutableMode
        = some ((mkdirFx fs u.stagingPath).set (u.tmpPath localPath)
            (some (.file [] DefaultExecutableMode))) := by
      simp [openCreateWronly, htmp0]
    have h4lp : writeAt (mkdirFx (FS.set (mkdirFx fs u.stagingPath) (u.tmpPath localPath)
        (some (Node.file [] DefaultExecutableMode))) (dirName localPath))
        (u.tmpPath localPath) d localPath = fs localPath := by
      rw [writeAt_ne _ _ _ _ hlp3, mkdirFx_ne _ _ _ hlp2, FS.get_set_ne _ _ _ _ hlp3,
        mkdirFx_ne _ _ _ hlp1]
    have hD : Download env u .preRename repoPath localPath fs
        = ⟨FS.set (writeAt (mkdirFx (FS.set (mkdirFx fs u.stagingPath)
            (u.tmpPath localPath) (some (Node.file [] DefaultExecutableMode)))
            (dirName localPath)) (u.tmpPath localPath) d) (u.tmpPath localPath) none,
          some "rename old", u.opt.platform == env.platformName, 1⟩ := by
      simp only [Download, e_open, hdl]
      rw [if_neg (by decide : FailPoint.preRename ≠ FailPoint.mkdirStaging),
        if_neg (by decide : FailPoint.preRename ≠ FailPoint.chmodStagingDir),
        if_neg (by decide : FailPoint.preRename ≠ FailPoint.openTmp),
        if_neg (by decide : FailPoint.preRename ≠ FailPoint.chmodTmp),
        if_neg (by decide : FailPoint.preRename ≠ FailPoint.mkdirDest),
        if_neg (by decide : FailPoint.preRename ≠ FailPoint.chmodDestDir),
        if_neg (by decide : FailPoint.preRename ≠ FailPoint.closeTmp),
        if_neg (fun h => FailPoint.noConfusion h.2), if_pos henv, h4lp]
      simp only [hfs]
      rw [if_pos trivial]
    rw [hD]
    refine ⟨rfl, ?_, FS.get_set_self _ _ _⟩
    show FS.set _ (u.tmpPath localPath) none localPath = some oldN
    rw [FS.get_set_ne _ _ _ _ hlp3, h4lp]
    exact hfs
  · intro hfs
    exact ⟨hshape.1, hshape.2.2.2.2 henv oldN hfs, hshape.2.2.1⟩
  · intro _
    exact ⟨hshape.1, hshape.2.2.1⟩

lemma goJoin_eq_joinNE (l : List String) (h : ∀ x ∈ l, x ≠ "") :
    goJoin l = joinNE l := by
  rw [goJoin, List.filter_eq_self.mpr]
  intro a ha
  simpa using h a ha

/-- Claim C4: `UpdateMetadata` returns success exactly when the underlying
refresh succeeds or fails with the "already at the latest snapshot"
condition; every other refresh failure is propagated as an error. -/
theorem updateMetadata_latest_snapshot (u : Updater) :
    UpdateMetadata u = none ↔
      (u.client.refresh = .ok ∨ u.client.refresh = .latestSnapshot) := by
  cases h : u.client.refresh <;> simp [UpdateMetadata, h]

/-- Claim C9: `RepoPath` and `LocalPath` are deterministic pure functions
(they are Lean functions of their arguments alone) equal to
`<target>/<platform>/<channel>/<target><ext>` and
`<root>/bin/<target>/<platform>/<channel>/<target><ext>` respectively, for
non-empty path components. -/
theorem artifact_paths_shape (env : Env) (u : Updater) (target channel : String)
    (ht : target ≠ "") (hc : channel ≠ "") (hp : u.opt.platform ≠ "")
    (hr : u.opt.rootDirectory ≠ "") :
    RepoPath env u target channel
      = target ++ "/" ++ u.opt.platform ++ "/" ++ channel ++ "/"
        ++ (target ++ env.execExt u.opt.platform) ∧
    LocalPath env u target channel
      = u.opt.rootDirectory ++ "/" ++ binDir ++ "/" ++ target ++ "/"
        ++ u.opt.platform ++ "/" ++ channel ++ "/"
        ++ (target ++ env.execExt u.opt.platform) := by
  have hte0 : target ++ env.execExt u.opt.platform ≠ "" := append_ne_empty target _ ht
  have hinner : goJoin [binDir, target, u.opt.platform, channel,
      target ++ env.execExt u.opt.platform]
      = binDir ++ "/" ++ (target ++ "/" ++ (u.opt.platform ++ "/" ++ (channel ++ "/"
        ++ (target ++ env.execExt u.opt.platform)))) := by
    rw [goJoin_eq_joinNE]
    · simp [joinNE, String.append_assoc]
    · intro x hx
      simp only [List.mem_cons, List.not_mem_nil, or_false] at hx
      rcases hx with rfl | rfl | rfl | rfl | rfl
      · decide
      · exact ht
      · exact hp
      · exact hc
      · exact hte0
  have hinner0 : goJoin [binDir, target, u.opt.platform, channel,
      target ++ env.execExt u.opt.platform] ≠ "" :=
    goJoin_ne_empty _ binDir (by simp) (by decide)
  constructor
  · rw [RepoPath, goJoin_eq_joinNE]
    · simp [joinNE, String.append_assoc]
    · intro x hx
      simp only [List.mem_cons, List.not_mem_nil, or_false] at hx
      rcases hx with rfl | rfl | rfl | rfl
      · exact ht
      · exact hp
      · exact hc
      · exact hte0
  · rw [LocalPath, Updater.pathFromRoot, goJoin_eq_joinNE]
    · rw [show joinNE [u.opt.rootDirectory, goJoin [binDir, target, u.opt.platform,
          channel, target ++ env.execExt u.opt.platform]]
          = u.opt.rootDirectory ++ "/" ++ goJoin [binDir, target, u.opt.platform,
          channel, target ++ env.execExt u.opt.platform] from by simp [joinNE]]
      rw [hinner]
      simp [String.append_assoc]
    · intro x hx
      simp only [List.mem_cons, List.not_mem_nil, or_false] at hx
      rcases hx with rfl | rfl
      · exact hr
      · exact hinner0

/-- Claim C7: when the path at `LocalPath(target, channel)` exists (stat
succeeds) but is not a regular file, `Get` fails with an empty path and an
error, invokes no download and no fetch, and does not modify the
filesystem. -/
theorem get_non_regular_file_error (env : Env) (u : Updater) (so : String → Bool)
    (o : FailPoint) (target channel : String) (fs : FS) (n : Node)
    (ht : target ≠ "") (hc : channel ≠ "")
    (hso : so (LocalPath env u target channel) = false)
    (hfs : fs (LocalPath env u target channel) = some n)
    (hn : n.isFile = false) :
    (Get env u so o target channel fs).path = "" ∧
    (Get env u so o target channel fs).err.isSome = true ∧
    (Get env u so o target channel fs).downloaded = false ∧
    (Get env u so o target channel fs).fetches = 0 ∧
    ∀ p, (Get env u so o target channel fs).fs p = fs p := by
  cases n with
  | file c m => simp [Node.isFile] at hn
  | dir =>
    refine ⟨?_, ?_, ?_, ?_, ?_⟩ <;> simp [Get, ht, hc, hso, hfs]
  | special =>
    refine ⟨?_, ?_, ?_, ?_, ?_⟩ <;> simp [Get, ht, hc, hso, hfs]

/-- Claim C8: for non-empty target and channel, when stat of the local
path fails for any reason (an injected stat error or absence of the path),
`Get` proceeds directly to `Download` without resolving metadata first,
and `Download`'s outcome (error and filesystem) is the outcome of `Get`. -/
theorem get_stat_failure_downloads (env : Env) (u : Updater) (so : String → Bool)
    (o : FailPoint) (target channel : String) (fs : FS)
    (ht : target ≠ "") (hc : channel ≠ "")
    (hstat : so (LocalPath env u target channel) = true
      ∨ fs (LocalPath env u target channel) = none) :
    (Get env u so o target channel fs).path = LocalPath env u target channel ∧
    (Get env u so o target channel fs).lookedUp = false ∧
    (Get env u so o target channel fs).downloaded = true ∧
    (Get env u so o target channel fs).err
      = (Download env u o (RepoPath env u target channel)
          (LocalPath env u target channel) fs).err ∧
    ∀ p, (Get env u so o target channel fs).fs p
      = (Download env u o (RepoPath env u target channel)
          (LocalPath env u target channel) fs).fs p := by
  rcases hstat with h | h
  · refine ⟨?_, ?_, ?_, ?_, ?_⟩ <;> simp [Get, ht, hc, h]
  · by_cases hso : so (LocalPath env u target channel) = true
    · refine ⟨?_, ?_, ?_, ?_, ?_⟩ <;> simp [Get, ht, hc, hso]
    · refine ⟨?_, ?_, ?_, ?_, ?_⟩ <;> simp [Get, ht, hc, hso, h]

/-- Claim C10: when `Get` takes a must-redownload branch (stat failure or
hash mismatch) and the download fails, it returns the non-empty local path
together with the download's error; a metadata-lookup failure instead
returns the empty string with an error. -/
theorem get_error_result_paths (env : Env) (u : Updater) (so : String → Bool)
    (o : FailPoint) (target channel : String) (fs : FS)
    (ht : target ≠ "") (hc : channel ≠ "") :
    ((so (LocalPath env u target channel) = true
        ∨ fs (LocalPath env u target channel) = none
        ∨ (∃ c m meta, fs (LocalPath env u target channel) = some (.file c m)
            ∧ so (LocalPath env u target channel) = false
            ∧ Lookup env u target channel = .ok meta
            ∧ CheckFileHash env meta c = false)) →
      (Download env u o (RepoPath env u target channel)
          (LocalPath env u target channel) fs).err.isSome = true →
      (Get env u so o target channel fs).path = LocalPath env u target channel ∧
      (Get env u so o target channel fs).path ≠ "" ∧
      (Get env u so o target channel fs).err
        = (Download env u o (RepoPath env u target channel)
            (LocalPath env u target channel) fs).err) ∧
    ((∃ c m e, fs (LocalPath env u target channel) = some (.file c m)
        ∧ so (LocalPath env u target channel) = false
        ∧ Lookup env u target channel = .error e) →
      (Get env u so o target channel fs).path = ""
      ∧ (Get env u so o target channel fs).err.isSome = true) := by
  constructor
  · intro hbr herr
    have hfin : ∀ (b : Bool), Get env u so o target channel fs
        = ⟨(Download env u o (RepoPath env u target channel)
              (LocalPath env u target channel) fs).fs,
            LocalPath env u target channel,
            (Download env u o (RepoPath env u target channel)
              (LocalPath env u target channel) fs).err,
            (Download env u o (RepoPath env u target channel)
              (LocalPath env u target channel) fs).fetches, b, true⟩ →
        (Get env u so o target channel fs).path = LocalPath env u target channel ∧
        (Get env u so o target channel fs).path ≠ "" ∧
        (Get env u so o target channel fs).err
          = (Download env u o (RepoPath env u target channel)
              (LocalPath env u target channel) fs).err := by
      intro b hG
      rw [hG]
      exact ⟨rfl, localPath_ne_empty env u target channel, rfl⟩
    rcases hbr with h | h | ⟨c, m, meta, hfs, hso, hlook, hhash⟩
    · exact hfin false (by simp [Get, ht, hc, h])
    · by_cases hso : so (LocalPath env u target channel) = true
      · exact hfin false (by simp [Get, ht, hc, hso])
      · exact hfin false (by simp [Get, ht, hc, hso, h])
    · exact hfin true (by simp [Get, ht, hc, hso, hfs, hlook, hhash])
  · rintro ⟨c, m, e, hfs, hso, hlook⟩
    have hG : Get env u so o target channel fs = ⟨fs, "", some e, 0, true, false⟩ := by
      simp [Get, ht, hc, hso, hfs, hlook]
    rw [hG]
    exact ⟨rfl, rfl⟩

/-! ### Evaluation theorems for the two code bugs, and witnesses -/

/-- Claim C2 (code bug evaluation): the staging file is opened with
`O_CREATE|O_WRONLY` and no `O_TRUNC`, so pre-existing content at the
staging path is not fully replaced: with a stale three-byte staging file
`[9, 9, 9]` and a verified download stream `[5]`, `Download` succeeds and
the published artifact is `[5, 9, 9]`, not the verified `[5]`. -/
theorem download_no_truncate_eval :
    fsC "r/staging/agent" = some (.file [9, 9, 9] 493) ∧
    u0.client.download "agent/linux/stable/agent" = .ok [5] ∧
    (Download env0 u0 .noFail "agent/linux/stable/agent"
      "r/bin/agent/linux/stable/agent" fsC).err = none ∧
    (Download env0 u0 .noFail "agent/linux/stable/agent"
      "r/bin/agent/linux/stable/agent" fsC).fs "r/bin/agent/linux/stable/agent"
      = some (.file [5, 9, 9] 493) ∧
    [5, 9, 9] ≠ [5] :=
  ⟨by decide, rfl, by decide, by decide, by decide⟩

/-- Claim C3 (code bug evaluation): two consecutive `Get` calls with
unchanged remote metadata fetch twice: the stale staging file makes the
first `Get` publish content whose hash no longer matches the metadata, so
the second `Get` must download again (each call reports one fetch). -/
theorem get_double_fetch_eval :
    (Get env0 u0 (fun _ => false) .noFail "agent" "stable" fsC).err = none ∧
    (Get env0 u0 (fun _ => false) .noFail "agent" "stable" fsC).fetches = 1 ∧
    (Get env0 u0 (fun _ => false) .noFail "agent" "stable"
      (Get env0 u0 (fun _ => false) .noFail "agent" "stable" fsC).fs).err = none ∧
    (Get env0 u0 (fun _ => false) .noFail "agent" "stable"
      (Get env0 u0 (fun _ => false) .noFail "agent" "stable" fsC).fs).fetches = 1 := by
  decide

/-- Witness for C1 at a concrete input: a close failure after a fetch on an
initially empty filesystem. -/
theorem download_failure_atomic_witness :
    FailPoint.closeTmp ≠ FailPoint.finalRename ∧
    (∀ p, UnderStaging u0 p → (fun _ => none : FS) p = none) ∧
    "r/bin/agent/linux/stable/agent" ≠ u0.stagingPath ∧
    "r/bin/agent/linux/stable/agent" ≠ dirName "r/bin/agent/linux/stable/agent" ∧
    "r/bin/agent/linux/stable/agent" ≠ u0.tmpPath "r/bin/agent/linux/stable/agent" ∧
    (Download env0 u0 .closeTmp "agent/linux/stable/agent"
      "r/bin/agent/linux/stable/agent" (fun _ => none)).err.isSome = true ∧
    ((Download env0 u0 .closeTmp "agent/linux/stable/agent"
        "r/bin/agent/linux/stable/agent" (fun _ => none)).fs
        "r/bin/agent/linux/stable/agent"
        = (fun _ => none : FS) "r/bin/agent/linux/stable/agent" ∧
      ∀ p, UnderStaging u0 p → ∀ c m,
        (Download env0 u0 .closeTmp "agent/linux/stable/agent"
          "r/bin/agent/linux/stable/agent" (fun _ => none)).fs p
          ≠ some (.file c m)) :=
  ⟨by decide, fun _ _ => rfl, by decide, by decide, by decide, by decide,
    download_failure_atomic env0 u0 .closeTmp "agent/linux/stable/agent"
      "r/bin/agent/linux/stable/agent" (fun _ => none) (by decide) (fun _ _ => rfl)
      (by decide) (by decide) (by decide) (by decide)⟩

/-- Witness for C5 at a concrete input: target platform equal to the
running platform, an injected smoke-test failure. -/
theorem download_smoke_test_gate_witness :
    u0.client.download "agent/linux/stable/agent" = .ok [5] ∧
    (fun _ => none : FS) (u0.tmpPath "r/bin/agent/linux/stable/agent") = none ∧
    "r/bin/agent/linux/stable/agent" ≠ u0.stagingPath ∧
    "r/bin/agent/linux/stable/agent" ≠ dirName "r/bin/agent/linux/stable/agent" ∧
    "r/bin/agent/linux/stable/agent" ≠ u0.tmpPath "r/bin/agent/linux/stable/agent" ∧
    "r/bin/agent/linux/stable/agent" ++ ".old"
      ≠ u0.tmpPath "r/bin/agent/linux/stable/agent" ∧
    ((Download env0 u0 .smoke "agent/linux/stable/agent"
        "r/bin/agent/linux/stable/agent" (fun _ => none)).smokeRan
        = (u0.opt.platform == env0.platformName) ∧
      (u0.opt.platform = env0.platformName →
        (Download env0 u0 .smoke "agent/linux/stable/agent"
          "r/bin/agent/linux/stable/agent" (fun _ => none)).err.isSome = true ∧
        (Download env0 u0 .smoke "agent/linux/stable/agent"
          "r/bin/agent/linux/stable/agent" (fun _ => none)).fs
          (u0.tmpPath "r/bin/agent/linux/stable/agent") = none) ∧
      (u0.opt.platform ≠ env0.platformName →
        (Download env0 u0 .smoke "agent/linux/stable/agent"
          "r/bin/agent/linux/stable/agent" (fun _ => none)).err = none ∧
        (Download env0 u0 .smoke "agent/linux/stable/agent"
          "r/bin/agent/linux/stable/agent" (fun _ => none)).fs
          "r/bin/agent/linux/stable/agent"
          = some (.file [5] DefaultExecutableMode))) :=
  ⟨rfl, rfl, by decide, by decide, by decide, by decide,
    download_smoke_test_gate env0 u0 "agent/linux/stable/agent"
      "r/bin/agent/linux/stable/agent" (fun _ => none) [5] rfl rfl
      (by decide) (by decide) (by decide) (by decide)⟩

/-- Witness for C6 at a concrete input: a Windows environment with an
existing installed artifact. -/
theorem download_windows_pre_rename_witness :
    envW.platformName = "windows" ∧
    uW.client.download "agent/windows/stable/agent.exe" = .ok [5] ∧
    fsW (uW.tmpPath "r/bin/agent/windows/stable/agent.exe") = none ∧
    "r/bin/agent/windows/stable/agent.exe" ≠ uW.stagingPath ∧
    "r/bin/agent/windows/stable/agent.exe"
      ≠ dirName "r/bin/agent/windows/stable/agent.exe" ∧
    "r/bin/agent/windows/stable/agent.exe"
      ≠ uW.tmpPath "r/bin/agent/windows/stable/agent.exe" ∧
    "r/bin/agent/windows/stable/agent.exe" ++ ".old"
      ≠ uW.tmpPath "r/bin/agent/windows/stable/agent.exe" ∧
    ((fsW "r/bin/agent/windows/stable/agent.exe" = some (.file [1] 493) →
      (Download envW uW .preRename "agent/windows/stable/agent.exe"
        "r/bin/agent/windows/stable/agent.exe" fsW).err.isSome = true ∧
      (Download envW uW .preRename "agent/windows/stable/agent.exe"
        "r/bin/agent/windows/stable/agent.exe" fsW).fs
        "r/bin/agent/windows/stable/agent.exe" = some (.file [1] 493) ∧
      (Download envW uW .preRename "agent/windows/stable/agent.exe"
        "r/bin/agent/windows/stable/agent.exe" fsW).fs
        (uW.tmpPath "r/bin/agent/windows/stable/agent.exe") = none) ∧
    (fsW "r/bin/agent/windows/stable/agent.exe" = some (.file [1] 493) →
      (Download envW uW .noFail "agent/windows/stable/agent.exe"
        "r/bin/agent/windows/stable/agent.exe" fsW).err = none ∧
      (Download envW uW .noFail "agent/windows/stable/agent.exe"
        "r/bin/agent/windows/stable/agent.exe" fsW).fs
        ("r/bin/agent/windows/stable/agent.exe" ++ ".old") = some (.file [1] 493) ∧
      (Download envW uW .noFail "agent/windows/stable/agent.exe"
        "r/bin/agent/windows/stable/agent.exe" fsW).fs
        "r/bin/agent/windows/stable/agent.exe"
        = some (.file [5] DefaultExecutableMode)) ∧
    (fsW "r/bin/agent/windows/stable/agent.exe" = none →
      (Download envW uW .noFail "agent/windows/stable/agent.exe"
        "r/bin/agent/windows/stable/agent.exe" fsW).err = none ∧
      (Download envW uW .noFail "agent/windows/stable/agent.exe"
        "r/bin/agent/windows/stable/agent.exe" fsW).fs
        "r/bin/agent/windows/stable/agent.exe"
        = some (.file [5] DefaultExecutableMode))) :=
  ⟨rfl, rfl, by decide, by decide, by decide, by decide, by decide,
    download_windows_pre_rename envW uW "agent/windows/stable/agent.exe"
      "r/bin/agent/windows/stable/agent.exe" fsW [5] (.file [1] 493) rfl rfl
      (by decide) (by decide) (by decide) (by decide) (by decide)⟩

/-- Witness for C7 at a concrete input: a directory sits at the local
path. -/
theorem get_non_regular_file_error_witness :
    ("agent" : String) ≠ "" ∧
    ("stable" : String) ≠ "" ∧
    (fun _ => false : String → Bool) (LocalPath env0 u0 "agent" "stable") = false ∧
    (fun q => if q = "r/bin/agent/linux/stable/agent" then some Node.dir else none : FS)
      (LocalPath env0 u0 "agent" "stable") = some Node.dir ∧
    Node.dir.isFile = false ∧
    ((Get env0 u0 (fun _ => false) .noFail "agent" "stable"
        (fun q => if q = "r/bin/agent/linux/stable/agent" then some Node.dir
          else none)).path = "" ∧
      (Get env0 u0 (fun _ => false) .noFail "agent" "stable"
        (fun q => if q = "r/bin/agent/linux/stable/agent" then some Node.dir
          else none)).err.isSome = true ∧
      (Get env0 u0 (fun _ => false) .noFail "agent" "stable"
        (fun q => if q = "r/bin/agent/linux/stable/agent" then some Node.dir
          else none)).downloaded = false ∧
      (Get env0 u0 (fun _ => false) .noFail "agent" "stable"
        (fun q => if q = "r/bin/agent/linux/stable/agent" then some Node.dir
          else none)).fetches = 0 ∧
      ∀ p, (Get env0 u0 (fun _ => false) .noFail "agent" "stable"
        (fun q => if q = "r/bin/agent/linux/stable/agent" then some Node.dir
          else none)).fs p
        = (fun q => if q = "r/bin/agent/linux/stable/agent" then some Node.dir
          else none : FS) p) :=
  ⟨by decide, by decide, rfl, by decide, by decide,
    get_non_regular_file_error env0 u0 (fun _ => false) .noFail "agent" "stable"
      (fun q => if q = "r/bin/agent/linux/stable/agent" then some Node.dir else none)
      Node.dir (by decide) (by decide) rfl (by decide) (by decide)⟩

/-- Witness for C8 at a concrete input: the local path is absent, so the
stat fails and `Get` downloads. -/
theorem get_stat_failure_downloads_witness :
    ("agent" : String) ≠ "" ∧
    ("stable" : String) ≠ "" ∧
    ((fun _ => false : String → Bool) (LocalPath env0 u0 "agent" "stable") = true
      ∨ (fun _ => none : FS) (LocalPath env0 u0 "agent" "stable") = none) ∧
    ((Get env0 u0 (fun _ => false) .noFail "agent" "stable" (fun _ => none)).path
        = LocalPath env0 u0 "agent" "stable" ∧
      (Get env0 u0 (fun _ => false) .noFail "agent" "stable"
        (fun _ => none)).lookedUp = false ∧
      (Get env0 u0 (fun _ => false) .noFail "agent" "stable"
        (fun _ => none)).downloaded = true ∧
      (Get env0 u0 (fun _ => false) .noFail "agent" "stable" (fun _ => none)).err
        = (Download env0 u0 .noFail (RepoPath env0 u0 "agent" "stable")
            (LocalPath env0 u0 "agent" "stable") (fun _ => none)).err ∧
      ∀ p, (Get env0 u0 (fun _ => false) .noFail "agent" "stable"
          (fun _ => none)).fs p
        = (Download env0 u0 .noFail (RepoPath env0 u0 "agent" "stable")
            (LocalPath env0 u0 "agent" "stable") (fun _ => none)).fs p) :=
  ⟨by decide, by decide, Or.inr rfl,
    get_stat_failure_downloads env0 u0 (fun _ => false) .noFail "agent" "stable"
      (fun _ => none) (by decide) (by decide) (Or.inr rfl)⟩

/-- Witness for C9 at a concrete input. -/
theorem artifact_paths_shape_witness :
    ("agent" : String) ≠ "" ∧
    ("stable" : String) ≠ "" ∧
    u0.opt.platform ≠ "" ∧
    u0.opt.rootDirectory ≠ "" ∧
    (RepoPath env0 u0 "agent" "stable"
        = "agent" ++ "/" ++ u0.opt.platform ++ "/" ++ "stable" ++ "/"
          ++ ("agent" ++ env0.execExt u0.opt.platform) ∧
      LocalPath env0 u0 "agent" "stable"
        = u0.opt.rootDirectory ++ "/" ++ binDir ++ "/" ++ "agent" ++ "/"
          ++ u0.opt.platform ++ "/" ++ "stable" ++ "/"
          ++ ("agent" ++ env0.execExt u0.opt.platform)) :=
  ⟨by decide, by decide, by decide, by decide,
    artifact_paths_shape env0 u0 "agent" "stable" (by decide) (by decide)
      (by decide) (by decide)⟩

/-- Witness for C10 at a concrete input: the local path is absent and the
injected close failure makes the download fail. -/
theorem get_error_result_paths_witness :
    ("agent" : String) ≠ "" ∧
    ("stable" : String) ≠ "" ∧
    (((fun _ => false : String → Bool) (LocalPath env0 u0 "agent" "stable") = true
        ∨ (fun _ => none : FS) (LocalPath env0 u0 "agent" "stable") = none
        ∨ (∃ c m meta, (fun _ => none : FS) (LocalPath env0 u0 "agent" "stable")
            = some (.file c m)
            ∧ (fun _ => false : String → Bool) (LocalPath env0 u0 "agent" "stable")
              = false
            ∧ Lookup env0 u0 "agent" "stable" = .ok meta
            ∧ CheckFileHash env0 meta c = false)) →
      (Download env0 u0 .closeTmp (RepoPath env0 u0 "agent" "stable")
          (LocalPath env0 u0 "agent" "stable") (fun _ => none)).err.isSome = true →
      (Get env0 u0 (fun _ => false) .closeTmp "agent" "stable" (fun _ => none)).path
        = LocalPath env0 u0 "agent" "stable" ∧
      (Get env0 u0 (fun _ => false) .closeTmp "agent" "stable"
        (fun _ => none)).path ≠ "" ∧
      (Get env0 u0 (fun _ => false) .closeTmp "agent" "stable" (fun _ => none)).err
        = (Download env0 u0 .closeTmp (RepoPath env0 u0 "agent" "stable")
            (LocalPath env0 u0 "agent" "stable") (fun _ => none)).err) ∧
    ((∃ c m e, (fun _ => none : FS) (LocalPath env0 u0 "agent" "stable")
        = some (.file c m)
        ∧ (fun _ => false : String → Bool) (LocalPath env0 u0 "agent" "stable")
          = false
        ∧ Lookup env0 u0 "agent" "stable" = .error e) →
      (Get env0 u0 (fun _ => false) .closeTmp "agent" "stable"
        (fun _ => none)).path = ""
      ∧ (Get env0 u0 (fun _ => false) .closeTmp "agent" "stable"
        (fun _ => none)).err.isSome = true) :=
  ⟨by decide, by decide,
    get_error_result_paths env0 u0 (fun _ => false) .closeTmp "agent" "stable"
      (fun _ => none) (by decide) (by decide)⟩


end Update
